import Mathlib

/-!
Verification of the CORS request-gating middleware and the fetch-helper
header-merging function of this repository.

The platform `Headers` collection (set / append / constructor semantics of the
Fetch standard) is modelled as an association list of name-value pairs.  Header
names are treated as already-normalized atoms compared for exact equality (the
platform lowercases every name on entry, so distinct stored names never differ
only by case).
-/

/-- A header collection: ordered list of (name, value) pairs. -/
abbrev HeaderMap : Type := List (String × String)

/-- `Headers.get(name)`: value of the first pair whose name matches, if any. -/
def headersGet (h : HeaderMap) (name : String) : Option String :=
  (h.find? (fun p => p.1 == name)).map (fun p => p.2)

/-- `Headers.set(name, value)`: replace the first matching pair in place and
drop any later pair with the same name; append when the name is absent. -/
def headersSet : HeaderMap → String → String → HeaderMap
  | [], name, value => [(name, value)]
  | p :: rest, name, value =>
    if p.1 == name then
      (name, value) :: rest.filter (fun q => q.1 != name)
    else
      p :: headersSet rest name value

/-- `Headers.append(name, value)` as used by the `Headers` constructor:
combine with an existing value using `", "`, else add a new pair. -/
def headersAppend (h : HeaderMap) (name value : String) : HeaderMap :=
  match headersGet h name with
  | some old => headersSet h name (old ++ ", " ++ value)
  | none => h ++ [(name, value)]

/-- `new Headers(init)`: fold the init entries through append semantics. -/
def headersOfInit (init : List (String × String)) : HeaderMap :=
  init.foldl (fun acc p => headersAppend acc p.1 p.2) ([] : HeaderMap)

/-- The value the key-value list assigns to `name` after all its pairs are
written in order with `set` semantics: the last pair with that name wins. -/
def lastValue : List (String × String) → String → Option String
  | [], _ => none
  | p :: rest, name =>
    match lastValue rest name with
    | some v => some v
    | none => if p.1 == name then some p.2 else none

/-- The `HeadersInit` union of the Fetch platform: a `Headers` instance, an
array of key-value pairs, or a plain record object. -/
inductive HeadersInit where
  | headers (h : HeaderMap)
  | pairs (l : List (String × String))
  | record (l : List (String × String))

/-- The entry list a `HeadersInit` value enumerates to. -/
def HeadersInit.entries : HeadersInit → List (String × String)
  | .headers h => h
  | .pairs l => l
  | .record l => l

/-- `computeHeaders` from src/modules/fetch-factory/fetch-utils.ts: build a
`Headers` from the defaults, then `set` every custom entry over it, branching
on the shape of the custom argument exactly as the source does; an absent
custom argument falls into the object branch with an empty object. -/
def computeHeaders (defaultHeaders : HeadersInit)
    (customHeaders : Option HeadersInit) : HeaderMap :=
  let resultHeaders := headersOfInit defaultHeaders.entries
  match customHeaders with
  | some (.headers h) => h.foldl (fun acc p => headersSet acc p.1 p.2) resultHeaders
  | some (.pairs l) => l.foldl (fun acc p => headersSet acc p.1 p.2) resultHeaders
  | some (.record l) => l.foldl (fun acc p => headersSet acc p.1 p.2) resultHeaders
  | none => ([] : List (String × String)).foldl (fun acc p => headersSet acc p.1 p.2) resultHeaders

/-- The entry list the optional custom-headers argument of `computeHeaders`
enumerates to: an absent argument contributes no entries. -/
def customEntries : Option HeadersInit → List (String × String)
  | some c => c.entries
  | none => []

/-- Modelled from the spec: the policy object of `createCorsMiddleware`
(src file create-cors-middleware.ts is absent from the sources; only its test
file is present).  Spec section 3: three optional ordered lists, each empty
when unset. -/
structure CorsOptions where
  origins : List String := []
  methods : List String := []
  headers : List String := []

/-- Modelled from the spec: the request view of section 3 — method, optional
`Origin` header, optional `Access-Control-Request-Method` header. -/
structure Request where
  method : String
  origin : Option String
  accessControlRequestMethod : Option String

/-- Modelled from the spec: the response abstraction of section 6 — a settable
status code and a header collection. -/
structure Response where
  status : Nat
  headers : HeaderMap

/-- Modelled from the spec: section 4.1 steps 3c and 5 — stamp the three CORS
headers on a header collection. -/
def setCorsHeaders (opts : CorsOptions) (allowOrigin : String) (h : HeaderMap) : HeaderMap :=
  headersSet
    (headersSet
      (headersSet h "Access-Control-Allow-Origin" allowOrigin)
      "Access-Control-Allow-Methods" (String.intercalate ", " opts.methods))
    "Access-Control-Allow-Headers" (String.intercalate ", " opts.headers)

/-- Modelled from the spec: the invocation algorithm of `createCorsMiddleware`
(section 4.1, the implementation file create-cors-middleware.ts is not among
the sources).  The downstream handler is modelled by the response value `next`
it would produce; the second component of the result counts how many times the
gate invoked it.  Steps: missing `Origin` gives a terminal 400; an origin
admissible through the `"*"` sentinel or an exact literal match proceeds, any
other gives a terminal 403; a preflight `OPTIONS` whose
`Access-Control-Request-Method` is in the methods list gets a fresh 204
response carrying the three CORS headers without invoking downstream, any
other preflight gets a terminal 405; every other request passes through:
downstream is invoked once and its response is returned with its status
unchanged and the three CORS headers set over its headers. -/
def corsMiddleware (opts : CorsOptions) (req : Request) (next : Response) :
    Response × Nat :=
  match req.origin with
  | none => (⟨400, []⟩, 0)
  | some origin =>
    if opts.origins.contains "*" || opts.origins.contains origin then
      let allowOrigin := if opts.origins.contains "*" then "*" else origin
      if req.method == "OPTIONS" then
        match req.accessControlRequestMethod with
        | some reqMethod =>
          if opts.methods.contains reqMethod then
            (⟨204, setCorsHeaders opts allowOrigin []⟩, 0)
          else
            (⟨405, []⟩, 0)
        | none => (⟨405, []⟩, 0)
      else
        (⟨next.status, setCorsHeaders opts allowOrigin next.headers⟩, 1)
    else
      (⟨403, []⟩, 0)

theorem headersGet_nil (name : String) : headersGet ([] : HeaderMap) name = none := rfl

theorem headersGet_cons (p : String × String) (rest : HeaderMap) (name : String) :
    headersGet (p :: rest) name =
      if p.1 == name then some p.2 else headersGet rest name := by
  unfold headersGet
  cases hp : (p.1 == name) <;> simp [List.find?_cons, hp]

theorem find?_filter_of_imp {α : Type} (l : List α) (p f : α → Bool)
    (h : ∀ a, p a = true → f a = true) : (l.filter f).find? p = l.find? p := by
  induction l with
  | nil => rfl
  | cons a t ih =>
    by_cases hf : f a = true
    · rw [List.filter_cons_of_pos hf]
      cases hp : p a
      · rw [List.find?_cons_of_neg _ (by simp [hp]), List.find?_cons_of_neg _ (by simp [hp]), ih]
      · rw [List.find?_cons_of_pos _ hp, List.find?_cons_of_pos _ hp]
    · have hp : p a = false := by
        cases hpa : p a
        · rfl
        · exact absurd (h a hpa) hf
      rw [List.filter_cons_of_neg (by simpa using hf), List.find?_cons_of_neg _ (by simp [hp]), ih]

theorem headersGet_filter_ne (rest : HeaderMap) (n m : String) (hnm : ¬ n = m) :
    headersGet (rest.filter (fun q => q.1 != n)) m = headersGet rest m := by
  unfold headersGet
  rw [find?_filter_of_imp]
  intro a ha
  have haeq : a.1 = m := by simpa using ha
  simp [bne, haeq]
  exact fun e => hnm e.symm

theorem headersGet_headersSet (h : HeaderMap) (n v m : String) :
    headersGet (headersSet h n v) m = if n == m then some v else headersGet h m := by
  induction h with
  | nil =>
    unfold headersSet
    cases hnm : (n == m) <;> simp [headersGet, List.find?, hnm]
  | cons p rest ih =>
    unfold headersSet
    by_cases hp : (p.1 == n) = true
    · rw [if_pos hp, headersGet_cons]
      have hpn : p.1 = n := by simpa using hp
      by_cases hnm : n = m
      · subst hnm
        simp
      · have hb : (n == m) = false := by simpa using hnm
        rw [hb]
        simp only [Bool.false_eq_true, if_false]
        rw [headersGet_filter_ne rest n m hnm, headersGet_cons]
        have : (p.1 == m) = false := by simp [hpn]; exact hnm
        rw [this]
        simp
    · rw [if_neg hp, headersGet_cons, ih, headersGet_cons]
      by_cases hnm : n = m
      · subst hnm
        have : (p.1 == n) = false := by simpa using hp
        rw [this]
        simp
      · have hb : (n == m) = false := by simpa using hnm
        rw [hb]
        simp

theorem headersGet_foldl_set (l : List (String × String)) (base : HeaderMap) (m : String) :
    headersGet (l.foldl (fun acc p => headersSet acc p.1 p.2) base) m =
      match lastValue l m with
      | some v => some v
      | none => headersGet base m := by
  induction l generalizing base with
  | nil => simp [lastValue]
  | cons p t ih =>
    rw [List.foldl_cons, ih]
    cases hlv : lastValue t m with
    | some v => simp [lastValue, hlv]
    | none =>
      rw [headersGet_headersSet]
      by_cases hpm : p.1 = m <;> simp [lastValue, hlv, hpm]

theorem mem_headersSet_of_key_ne (h : HeaderMap) (q : String × String) (n v : String)
    (hq : q ∈ h) (hne : ¬ q.1 = n) : q ∈ headersSet h n v := by
  induction h with
  | nil => cases hq
  | cons p rest ih =>
    unfold headersSet
    by_cases hp : (p.1 == n) = true
    · rw [if_pos hp]
      rcases List.mem_cons.mp hq with hqp | hmem
      · exact absurd (hqp ▸ (by simpa using hp)) hne
      · exact List.mem_cons_of_mem _ (List.mem_filter.mpr ⟨hmem, by simpa using hne⟩)
    · rw [if_neg hp]
      rcases List.mem_cons.mp hq with hqp | hmem
      · exact hqp ▸ List.mem_cons_self _ _
      · exact List.mem_cons_of_mem _ (ih hmem)

theorem mem_foldl_set (l : List (String × String)) (base : HeaderMap)
    (q : String × String) (hq : q ∈ base) (hl : ∀ p ∈ l, ¬ p.1 = q.1) :
    q ∈ l.foldl (fun acc p => headersSet acc p.1 p.2) base := by
  induction l generalizing base with
  | nil => exact hq
  | cons p t ih =>
    rw [List.foldl_cons]
    refine ih (headersSet base p.1 p.2)
      (mem_headersSet_of_key_ne base q p.1 p.2 hq ?_) ?_
    · intro hqe
      exact hl p (List.mem_cons_self p t) hqe.symm
    · intro r hr
      exact hl r (List.mem_cons_of_mem p hr)

theorem headersGet_setCorsHeaders_origin (opts : CorsOptions) (ao : String) (h : HeaderMap) :
    headersGet (setCorsHeaders opts ao h) "Access-Control-Allow-Origin" = some ao := by
  unfold setCorsHeaders
  rw [headersGet_headersSet, headersGet_headersSet, headersGet_headersSet]
  simp

theorem headersGet_setCorsHeaders_methods (opts : CorsOptions) (ao : String) (h : HeaderMap) :
    headersGet (setCorsHeaders opts ao h) "Access-Control-Allow-Methods" =
      some (String.intercalate ", " opts.methods) := by
  unfold setCorsHeaders
  rw [headersGet_headersSet, headersGet_headersSet]
  simp

theorem headersGet_setCorsHeaders_headerList (opts : CorsOptions) (ao : String) (h : HeaderMap) :
    headersGet (setCorsHeaders opts ao h) "Access-Control-Allow-Headers" =
      some (String.intercalate ", " opts.headers) := by
  unfold setCorsHeaders
  rw [headersGet_headersSet]
  simp

theorem headersGet_setCorsHeaders_other (opts : CorsOptions) (ao : String) (h : HeaderMap)
    (n : String)
    (h1 : ¬ n = "Access-Control-Allow-Origin")
    (h2 : ¬ n = "Access-Control-Allow-Methods")
    (h3 : ¬ n = "Access-Control-Allow-Headers") :
    headersGet (setCorsHeaders opts ao h) n = headersGet h n := by
  unfold setCorsHeaders
  rw [headersGet_headersSet, headersGet_headersSet, headersGet_headersSet]
  have e1 : (("Access-Control-Allow-Headers" : String) == n) = false := by
    simp
    exact fun e => h3 e.symm
  have e2 : (("Access-Control-Allow-Methods" : String) == n) = false := by
    simp
    exact fun e => h2 e.symm
  have e3 : (("Access-Control-Allow-Origin" : String) == n) = false := by
    simp
    exact fun e => h1 e.symm
  rw [e1, e2, e3]
  simp

/-- Claim C3: every request missing the Origin header gets a terminal 400
response with none of the three CORS headers, regardless of method, other
headers and policy, and the downstream handler is never invoked. -/
theorem cors_missing_origin (opts : CorsOptions) (req : Request) (next : Response)
    (ho : req.origin = none) :
    (corsMiddleware opts req next).1.status = 400 ∧
    (corsMiddleware opts req next).2 = 0 ∧
    headersGet (corsMiddleware opts req next).1.headers "Access-Control-Allow-Origin" = none ∧
    headersGet (corsMiddleware opts req next).1.headers "Access-Control-Allow-Methods" = none ∧
    headersGet (corsMiddleware opts req next).1.headers "Access-Control-Allow-Headers" = none := by
  have key : corsMiddleware opts req next = (⟨400, []⟩, 0) := by
    unfold corsMiddleware
    rw [ho]
  rw [key]
  exact ⟨rfl, rfl, rfl, rfl, rfl⟩

theorem cors_missing_origin_witness :
    (corsMiddleware ⟨["http://example.com"], ["GET"], []⟩ ⟨"GET", none, none⟩
      ⟨200, []⟩).1.status = 400 :=
  (cors_missing_origin ⟨["http://example.com"], ["GET"], []⟩ ⟨"GET", none, none⟩
    ⟨200, []⟩ rfl).1

/-- Claim C4: a present Origin that matches no configured literal, with the
wildcard sentinel absent, gets a terminal 403 with no CORS headers and no
downstream invocation. -/
theorem cors_origin_not_allowed (opts : CorsOptions) (req : Request) (next : Response)
    (o : String) (ho : req.origin = some o)
    (hw : opts.origins.contains "*" = false)
    (hmem : opts.origins.contains o = false) :
    (corsMiddleware opts req next).1.status = 403 ∧
    (corsMiddleware opts req next).2 = 0 ∧
    headersGet (corsMiddleware opts req next).1.headers "Access-Control-Allow-Origin" = none ∧
    headersGet (corsMiddleware opts req next).1.headers "Access-Control-Allow-Methods" = none ∧
    headersGet (corsMiddleware opts req next).1.headers "Access-Control-Allow-Headers" = none := by
  have hw' : ¬ "*" ∈ opts.origins := by simpa using hw
  have hmem' : ¬ o ∈ opts.origins := by simpa using hmem
  have key : corsMiddleware opts req next = (⟨403, []⟩, 0) := by
    unfold corsMiddleware
    rw [ho]
    simp [hw', hmem']
  rw [key]
  exact ⟨rfl, rfl, rfl, rfl, rfl⟩

theorem cors_origin_not_allowed_witness :
    (corsMiddleware ⟨["http://example.com"], [], []⟩
      ⟨"GET", some "http://example.org", none⟩ ⟨200, []⟩).1.status = 403 :=
  (cors_origin_not_allowed ⟨["http://example.com"], [], []⟩
    ⟨"GET", some "http://example.org", none⟩ ⟨200, []⟩ "http://example.org"
    rfl (by decide) (by decide)).1

/-- Claim C8: with an empty (or omitted, hence defaulted-empty) origins list,
every request carrying an Origin header is rejected with status 403, for every
method and every Origin value, and downstream is never invoked. -/
theorem cors_empty_origins_deny (opts : CorsOptions) (req : Request) (next : Response)
    (o : String) (ho : req.origin = some o) (he : opts.origins = []) :
    (corsMiddleware opts req next).1.status = 403 ∧
    (corsMiddleware opts req next).2 = 0 := by
  have key : corsMiddleware opts req next = (⟨403, []⟩, 0) := by
    unfold corsMiddleware
    rw [ho]
    simp [he]
  rw [key]
  exact ⟨rfl, rfl⟩

theorem cors_empty_origins_deny_witness :
    (corsMiddleware ⟨[], ["GET"], ["Content-Type"]⟩
      ⟨"POST", some "http://example.com", none⟩ ⟨200, []⟩).1.status = 403 :=
  (cors_empty_origins_deny ⟨[], ["GET"], ["Content-Type"]⟩
    ⟨"POST", some "http://example.com", none⟩ ⟨200, []⟩ "http://example.com"
    rfl rfl).1

/-- Claim C5: an OPTIONS request with an admissible Origin whose
Access-Control-Request-Method is not a byte-exact member of the configured
methods list gets a terminal 405, with no downstream invocation. -/
theorem cors_preflight_method_not_allowed (opts : CorsOptions) (req : Request)
    (next : Response) (o m : String) (ho : req.origin = some o)
    (hadm : (opts.origins.contains "*" || opts.origins.contains o) = true)
    (hopt : req.method = "OPTIONS")
    (hacrm : req.accessControlRequestMethod = some m)
    (hmem : opts.methods.contains m = false) :
    (corsMiddleware opts req next).1.status = 405 ∧
    (corsMiddleware opts req next).2 = 0 := by
  have hadm' : "*" ∈ opts.origins ∨ o ∈ opts.origins := by simpa using hadm
  have hmem' : ¬ m ∈ opts.methods := by simpa using hmem
  have key : corsMiddleware opts req next = (⟨405, []⟩, 0) := by
    unfold corsMiddleware
    rw [ho]
    simp [hadm', hopt, hacrm, hmem']
  rw [key]
  exact ⟨rfl, rfl⟩

theorem cors_preflight_method_not_allowed_witness :
    (corsMiddleware ⟨["http://example.com"], ["GET"], []⟩
      ⟨"OPTIONS", some "http://example.com", some "PATCH"⟩ ⟨200, []⟩).1.status = 405 :=
  (cors_preflight_method_not_allowed ⟨["http://example.com"], ["GET"], []⟩
    ⟨"OPTIONS", some "http://example.com", some "PATCH"⟩ ⟨200, []⟩
    "http://example.com" "PATCH" rfl (by decide) rfl rfl (by decide)).1

/-- Claim C2: an OPTIONS request with an admissible Origin whose
Access-Control-Request-Method is a byte-exact member of the configured methods
list gets status exactly 204, Access-Control-Allow-Methods and
Access-Control-Allow-Headers equal to the configured lists joined by ", " in
configured order, and the downstream handler is never invoked. -/
theorem cors_preflight_allowed (opts : CorsOptions) (req : Request) (next : Response)
    (o m : String) (ho : req.origin = some o)
    (hadm : (opts.origins.contains "*" || opts.origins.contains o) = true)
    (hopt : req.method = "OPTIONS")
    (hacrm : req.accessControlRequestMethod = some m)
    (hmem : opts.methods.contains m = true) :
    (corsMiddleware opts req next).1.status = 204 ∧
    (corsMiddleware opts req next).2 = 0 ∧
    headersGet (corsMiddleware opts req next).1.headers "Access-Control-Allow-Methods" =
      some (String.intercalate ", " opts.methods) ∧
    headersGet (corsMiddleware opts req next).1.headers "Access-Control-Allow-Headers" =
      some (String.intercalate ", " opts.headers) := by
  have hadm' : "*" ∈ opts.origins ∨ o ∈ opts.origins := by simpa using hadm
  have hmem' : m ∈ opts.methods := by simpa using hmem
  have key : corsMiddleware opts req next =
      (⟨204, setCorsHeaders opts (if opts.origins.contains "*" then "*" else o) []⟩, 0) := by
    unfold corsMiddleware
    rw [ho]
    simp [hadm', hopt, hacrm, hmem']
  rw [key]
  exact ⟨rfl, rfl, headersGet_setCorsHeaders_methods opts _ [],
    headersGet_setCorsHeaders_headerList opts _ []⟩

theorem cors_preflight_allowed_witness :
    (corsMiddleware ⟨["http://example.com"], ["OPTIONS", "GET", "POST", "PUT", "DELETE"], []⟩
      ⟨"OPTIONS", some "http://example.com", some "GET"⟩ ⟨200, []⟩).1.status = 204 :=
  (cors_preflight_allowed
    ⟨["http://example.com"], ["OPTIONS", "GET", "POST", "PUT", "DELETE"], []⟩
    ⟨"OPTIONS", some "http://example.com", some "GET"⟩ ⟨200, []⟩
    "http://example.com" "GET" rfl (by decide) rfl rfl (by decide)).1

/-- Claim C1: every non-OPTIONS request with a present, admissible Origin
invokes the downstream handler exactly once; the gate returns the downstream
response with its status unchanged, keeps every non-CORS header the handler
set, and adds the three CORS headers. -/
theorem cors_nonOptions_passthrough (opts : CorsOptions) (req : Request) (next : Response)
    (o : String) (ho : req.origin = some o)
    (hadm : (opts.origins.contains "*" || opts.origins.contains o) = true)
    (hm : ¬ req.method = "OPTIONS") :
    (corsMiddleware opts req next).2 = 1 ∧
    (corsMiddleware opts req next).1.status = next.status ∧
    (∀ n : String, ¬ n = "Access-Control-Allow-Origin" →
      ¬ n = "Access-Control-Allow-Methods" → ¬ n = "Access-Control-Allow-Headers" →
      headersGet (corsMiddleware opts req next).1.headers n = headersGet next.headers n) ∧
    headersGet (corsMiddleware opts req next).1.headers "Access-Control-Allow-Origin" =
      some (if opts.origins.contains "*" then "*" else o) ∧
    headersGet (corsMiddleware opts req next).1.headers "Access-Control-Allow-Methods" =
      some (String.intercalate ", " opts.methods) ∧
    headersGet (corsMiddleware opts req next).1.headers "Access-Control-Allow-Headers" =
      some (String.intercalate ", " opts.headers) := by
  have hadm' : "*" ∈ opts.origins ∨ o ∈ opts.origins := by simpa using hadm
  have key : corsMiddleware opts req next =
      (⟨next.status,
        setCorsHeaders opts (if opts.origins.contains "*" then "*" else o) next.headers⟩,
        1) := by
    unfold corsMiddleware
    rw [ho]
    simp [hadm', hm]
  rw [key]
  refine ⟨rfl, rfl, ?_, ?_, ?_, ?_⟩
  · intro n h1 h2 h3
    exact headersGet_setCorsHeaders_other opts _ next.headers n h1 h2 h3
  · exact headersGet_setCorsHeaders_origin opts _ next.headers
  · exact headersGet_setCorsHeaders_methods opts _ next.headers
  · exact headersGet_setCorsHeaders_headerList opts _ next.headers

theorem cors_nonOptions_passthrough_witness :
    (corsMiddleware ⟨["http://example.com"], ["GET"], ["Content-Type"]⟩
      ⟨"GET", some "http://example.com", none⟩
      ⟨200, [("Content-Type", "application/json")]⟩).2 = 1 :=
  (cors_nonOptions_passthrough ⟨["http://example.com"], ["GET"], ["Content-Type"]⟩
    ⟨"GET", some "http://example.com", none⟩
    ⟨200, [("Content-Type", "application/json")]⟩ "http://example.com"
    rfl (by decide) (by decide)).1

/-- Claim C6 as stated is false: with the wildcard configured, an OPTIONS
request carrying an Origin header whose Access-Control-Request-Method is not
an allowed method gets the terminal 405 response, which carries no
Access-Control-Allow-Origin header at all. -/
theorem cors_wildcard_counterexample :
    headersGet (corsMiddleware ⟨["*"], ["GET"], []⟩
      ⟨"OPTIONS", some "http://example.com", some "PATCH"⟩ ⟨200, []⟩).1.headers
      "Access-Control-Allow-Origin" = none ∧
    ¬ headersGet (corsMiddleware ⟨["*"], ["GET"], []⟩
      ⟨"OPTIONS", some "http://example.com", some "PATCH"⟩ ⟨200, []⟩).1.headers
      "Access-Control-Allow-Origin" = some "*" := by
  exact ⟨rfl, by decide⟩

/-- Claim C6 amended: for every request carrying an Origin header, when the
origins list contains the sentinel "*" and the request is not a rejected
preflight (if its method is OPTIONS then its Access-Control-Request-Method is
a configured method), the Access-Control-Allow-Origin header of the result
equals exactly "*", regardless of the request's Origin value. -/
theorem cors_wildcard_allow_origin (opts : CorsOptions) (req : Request) (next : Response)
    (o : String) (ho : req.origin = some o)
    (hw : opts.origins.contains "*" = true)
    (hpre : req.method = "OPTIONS" →
      ∃ m, req.accessControlRequestMethod = some m ∧ opts.methods.contains m = true) :
    headersGet (corsMiddleware opts req next).1.headers "Access-Control-Allow-Origin" =
      some "*" := by
  have hw' : "*" ∈ opts.origins := by simpa using hw
  by_cases hm : req.method = "OPTIONS"
  · obtain ⟨m, hacrm, hmem⟩ := hpre hm
    have hmem' : m ∈ opts.methods := by simpa using hmem
    have key : corsMiddleware opts req next = (⟨204, setCorsHeaders opts "*" []⟩, 0) := by
      unfold corsMiddleware
      rw [ho]
      simp [hw', hm, hacrm, hmem']
    rw [key]
    exact headersGet_setCorsHeaders_origin opts "*" []
  · have key : corsMiddleware opts req next =
        (⟨next.status, setCorsHeaders opts "*" next.headers⟩, 1) := by
      unfold corsMiddleware
      rw [ho]
      simp [hw', hm]
    rw [key]
    exact headersGet_setCorsHeaders_origin opts "*" next.headers

theorem cors_wildcard_allow_origin_witness :
    headersGet (corsMiddleware ⟨["*"], ["GET", "PATCH"], []⟩
      ⟨"GET", some "http://example.com", none⟩ ⟨200, []⟩).1.headers
      "Access-Control-Allow-Origin" = some "*" :=
  cors_wildcard_allow_origin ⟨["*"], ["GET", "PATCH"], []⟩
    ⟨"GET", some "http://example.com", none⟩ ⟨200, []⟩ "http://example.com"
    rfl (by decide) (fun h => absurd h (by decide))

/-- Claim C7 as stated is false: with a literal-matched Origin and no wildcard
configured, an OPTIONS request whose Access-Control-Request-Method is not an
allowed method gets the terminal 405 response, which carries no
Access-Control-Allow-Origin header at all. -/
theorem cors_echo_counterexample :
    headersGet (corsMiddleware ⟨["http://example.com"], ["GET"], []⟩
      ⟨"OPTIONS", some "http://example.com", some "PATCH"⟩ ⟨200, []⟩).1.headers
      "Access-Control-Allow-Origin" = none ∧
    ¬ headersGet (corsMiddleware ⟨["http://example.com"], ["GET"], []⟩
      ⟨"OPTIONS", some "http://example.com", some "PATCH"⟩ ⟨200, []⟩).1.headers
      "Access-Control-Allow-Origin" = some "http://example.com" := by
  exact ⟨rfl, by decide⟩

/-- Claim C7 amended: for every request whose Origin header byte-exact matches
a configured literal origin, when the sentinel "*" is not configured and the
request is not a rejected preflight (if its method is OPTIONS then its
Access-Control-Request-Method is a configured method), the
Access-Control-Allow-Origin header of the result equals the request's Origin
value exactly — an echo, never some other allow-list entry. -/
theorem cors_echo_allow_origin (opts : CorsOptions) (req : Request) (next : Response)
    (o : String) (ho : req.origin = some o)
    (hw : opts.origins.contains "*" = false)
    (hmem : opts.origins.contains o = true)
    (hpre : req.method = "OPTIONS" →
      ∃ m, req.accessControlRequestMethod = some m ∧ opts.methods.contains m = true) :
    headersGet (corsMiddleware opts req next).1.headers "Access-Control-Allow-Origin" =
      some o := by
  have hw' : ¬ "*" ∈ opts.origins := by simpa using hw
  have hmem' : o ∈ opts.origins := by simpa using hmem
  by_cases hm : req.method = "OPTIONS"
  · obtain ⟨m, hacrm, hmm⟩ := hpre hm
    have hmm' : m ∈ opts.methods := by simpa using hmm
    have key : corsMiddleware opts req next = (⟨204, setCorsHeaders opts o []⟩, 0) := by
      unfold corsMiddleware
      rw [ho]
      simp [hw', hmem', hm, hacrm, hmm']
    rw [key]
    exact headersGet_setCorsHeaders_origin opts o []
  · have key : corsMiddleware opts req next =
        (⟨next.status, setCorsHeaders opts o next.headers⟩, 1) := by
      unfold corsMiddleware
      rw [ho]
      simp [hw', hmem', hm]
    rw [key]
    exact headersGet_setCorsHeaders_origin opts o next.headers

theorem cors_echo_allow_origin_witness :
    headersGet (corsMiddleware ⟨["http://other.example", "http://example.com"], ["GET"], []⟩
      ⟨"GET", some "http://example.com", none⟩ ⟨200, []⟩).1.headers
      "Access-Control-Allow-Origin" = some "http://example.com" :=
  cors_echo_allow_origin ⟨["http://other.example", "http://example.com"], ["GET"], []⟩
    ⟨"GET", some "http://example.com", none⟩ ⟨200, []⟩ "http://example.com"
    rfl (by decide) (by decide) (fun h => absurd h (by decide))

/-- Claim C10: evaluation of the spec-modelled gate at the input of the
repository's own test "should return 405 Method Not Allowed if request method
is not allowed" (policy methods ["GET"], actual POST request with an allowed
Origin).  The spec's algorithm checks the method only on OPTIONS preflights,
so the modelled gate invokes the downstream handler once and passes its status
through, where the repository's test demands a terminal 405 with no
invocation. -/
theorem cors_actual_method_unchecked :
    (corsMiddleware ⟨["http://example.com"], ["GET"], []⟩
      ⟨"POST", some "http://example.com", some "POST"⟩ ⟨200, []⟩).1.status = 200 ∧
    (corsMiddleware ⟨["http://example.com"], ["GET"], []⟩
      ⟨"POST", some "http://example.com", some "POST"⟩ ⟨200, []⟩).2 = 1 :=
  ⟨rfl, rfl⟩

/-- Claim C9: for every base and custom argument (Headers instance, array of
pairs, record object, or absent), the collection `computeHeaders` returns
gives, at every name, the custom argument's last-written value when one of its
entries carries that name, and the base collection's value otherwise; an
absent custom argument yields exactly the Headers built from the base, and
every base pair whose name no custom entry carries is kept in the result. -/
theorem computeHeaders_merge (base : HeadersInit) (custom : Option HeadersInit)
    (m : String) :
    (headersGet (computeHeaders base custom) m =
      match lastValue (customEntries custom) m with
      | some v => some v
      | none => headersGet (headersOfInit base.entries) m) ∧
    computeHeaders base none = headersOfInit base.entries ∧
    (∀ q ∈ headersOfInit base.entries,
      (∀ p ∈ customEntries custom, ¬ p.1 = q.1) → q ∈ computeHeaders base custom) := by
  refine ⟨?_, rfl, ?_⟩
  · cases custom with
    | none => exact headersGet_foldl_set [] (headersOfInit base.entries) m
    | some c =>
      cases c with
      | headers h => exact headersGet_foldl_set h (headersOfInit base.entries) m
      | pairs l => exact headersGet_foldl_set l (headersOfInit base.entries) m
      | record l => exact headersGet_foldl_set l (headersOfInit base.entries) m
  · intro q hq hne
    cases custom with
    | none => exact mem_foldl_set [] (headersOfInit base.entries) q hq (by intro p hp; cases hp)
    | some c =>
      cases c with
      | headers h => exact mem_foldl_set h (headersOfInit base.entries) q hq hne
      | pairs l => exact mem_foldl_set l (headersOfInit base.entries) q hq hne
      | record l => exact mem_foldl_set l (headersOfInit base.entries) q hq hne

theorem computeHeaders_merge_witness :
    headersGet (computeHeaders
      (HeadersInit.pairs [("Content-Type", "text/html"), ("Accept", "text/html")])
      (some (HeadersInit.record [("Content-Type", "application/json")])))
      "Content-Type" = some "application/json" := by
  have h := (computeHeaders_merge
    (HeadersInit.pairs [("Content-Type", "text/html"), ("Accept", "text/html")])
    (some (HeadersInit.record [("Content-Type", "application/json")])) "Content-Type").1
  rw [h]
  rfl
